import Mathlib

set_option maxRecDepth 40000

/-!
Verification of the DUML protocol engine (DJI Osmo BLE control repository).

The development shallowly embeds the protocol core found in
`src/protocol/constants.mjs` (message builder, parser, stream framer,
sequence counter) and the pairing flow of the `OsmoConnection` facade.
Buffers are `List Nat` whose elements are byte values; JavaScript
`Buffer` reads/writes that coerce or validate their arguments are
embedded explicitly (`&&& 0xFF` masking for element stores, `Option`
failure for the range-checked `writeUInt16LE`/`writeUInt16BE` calls).
-/

-- ═══════════════════════════ Protocol constants ═══════════════════════════
-- From src/protocol/constants.mjs (ADDR / TARGET / FLAG / CMD_SET / WIFI_CMD).

def ADDR_APP : Nat := 0x02
def ADDR_GIMBAL : Nat := 0x04
def ADDR_WIFI : Nat := 0x07

/-- Target = sender | (receiver << 8): App→Gimbal. -/
def TARGET_APP_TO_GIMBAL : Nat := ADDR_APP ||| (ADDR_GIMBAL <<< 8)

/-- Target = sender | (receiver << 8): App→WiFi. -/
def TARGET_APP_TO_WIFI : Nat := ADDR_APP ||| (ADDR_WIFI <<< 8)

def FLAG_REQUEST : Nat := 0x40
def FLAG_RESPONSE : Nat := 0xC0
def FLAG_NOTIFY : Nat := 0x00

def CMD_SET_CAMERA : Nat := 0x01
def CMD_SET_GIMBAL : Nat := 0x04
def CMD_SET_BATTERY : Nat := 0x06
def CMD_SET_WIFI : Nat := 0x07

def WIFI_CMD_SET_PAIRING_PIN : Nat := 0x45
def WIFI_CMD_PAIRING_APPROVED : Nat := 0x46

-- ═══════════════════════════ Checksum engine ═══════════════════════════════

/-- Reverse the low `width` bits of `x` (bit-reflection used by the CRC
reflect-in/reflect-out stages). -/
def reflectBits (width : Nat) (x : Nat) : Nat :=
  (List.range width).foldl (fun acc i => (acc <<< 1) ||| ((x >>> i) &&& 1)) 0

/-- One input byte of the MSB-first parametric CRC register update. -/
def crcByteStep (width poly : Nat) (crc b : Nat) : Nat :=
  let crc := crc ^^^ (b <<< (width - 8))
  (List.range 8).foldl
    (fun c _ =>
      if c &&& (1 <<< (width - 1)) ≠ 0 then ((c <<< 1) ^^^ poly) &&& (2 ^ width - 1)
      else (c <<< 1) &&& (2 ^ width - 1))
    crc

/-- Modelled from the spec: §4.1 Checksum Engine.  The repository computes
its checksums through the external `crc-full` npm dependency (not part of
the repository's sources); the spec describes the standard Rocksoft
parametric CRC model with bit-width, polynomial, initial register, output
XOR mask and input/output reflection flags, which is embedded here
bit-at-a-time.  Every claim treats the checksum value itself as opaque. -/
def computeCrc (width poly init xorOut : Nat) (refIn refOut : Bool)
    (data : List Nat) : Nat :=
  let crc := data.foldl
    (fun c b => crcByteStep width poly c (if refIn then reflectBits 8 b else b)) init
  let crc := if refOut then reflectBits width crc else crc
  (crc ^^^ xorOut) &&& (2 ^ width - 1)

/-- CRC-8 instance used by the protocol (width 8, poly 0x31, init 0xEE,
xorOut 0x00, reflect in/out). -/
def computeCrc8 (data : List Nat) : Nat :=
  computeCrc 8 0x31 0xEE 0x00 true true data

/-- CRC-16 instance used by the protocol (width 16, poly 0x1021, init
0x496C, xorOut 0x0000, reflect in/out). -/
def computeCrc16 (data : List Nat) : Nat :=
  computeCrc 16 0x1021 0x496C 0x0000 true true data

-- ═══════════════════════════ Message codec ═════════════════════════════════

/-- Decoded DUML frame, mirroring the object literal returned by
`parseMessage` in src/protocol/constants.mjs. -/
structure Frame where
  length : Nat
  sender : Nat
  receiver : Nat
  msgId : Nat
  flags : Nat
  cmdSet : Nat
  cmdId : Nat
  payload : List Nat
  raw : List Nat
deriving DecidableEq, Repr

/-- JavaScript `Buffer.slice(start, stop)` (alias of `subarray`): negative
indices count from the end of the buffer, and both bounds are clamped to
`[0, length]`. -/
def jsSlice (data : List Nat) (start stop : Int) : List Nat :=
  (data.take
      (if stop < 0 then max ((data.length : Int) + stop) 0
       else min stop (data.length : Int)).toNat).drop
    (if start < 0 then max ((data.length : Int) + start) 0
     else min start (data.length : Int)).toNat

/-- The 10-bit length field `data[1] | ((data[2] & 0x03) << 8)` read by both
`parseMessage` and `parseStream`. -/
def lenField (data : List Nat) : Nat :=
  data.getD 1 0 ||| ((data.getD 2 0 &&& 0x03) <<< 8)

/-- Embedding of `parseMessage` (src/protocol/constants.mjs lines 173-189):
reject inputs shorter than 13 bytes or not starting with the 0x55 magic,
read the 10-bit length field, reject if fewer bytes than `len` are
available, then extract all fields positionally.  No checksum is
inspected. -/
def parseMessage (data : List Nat) : Option Frame :=
  if data.length < 13 ∨ data.getD 0 0 ≠ 0x55 then none
  else if data.length < lenField data then none
  else some
    { length := lenField data
      sender := data.getD 4 0
      receiver := data.getD 5 0
      msgId := 256 * data.getD 6 0 + data.getD 7 0
      flags := data.getD 8 0
      cmdSet := data.getD 9 0
      cmdId := data.getD 10 0
      payload := jsSlice data 11 ((lenField data : Int) - 2)
      raw := jsSlice data 0 (lenField data : Int) }

/-- Everything `buildMessage` writes before the trailing CRC-16: magic,
10-bit length plus 6-bit version (`version = 1`, so the high length byte is
`((totalLen >> 8) & 0x03) | (1 << 2)`), CRC-8 of the first three bytes,
target as two LE bytes, sequence id as two BE bytes, `[flags, cmdSet,
cmdId]`, then the payload bytes. -/
def bmBody (target flags cmdSet cmdId : Nat) (payload : List Nat)
    (msgSeq : Nat) : List Nat :=
  [0x55,
   (13 + payload.length) &&& 0xFF,
   (((13 + payload.length) >>> 8) &&& 0x03) ||| (1 <<< 2),
   computeCrc8 [0x55, (13 + payload.length) &&& 0xFF,
                (((13 + payload.length) >>> 8) &&& 0x03) ||| (1 <<< 2)],
   target &&& 0xFF, (target >>> 8) &&& 0xFF,
   (msgSeq >>> 8) &&& 0xFF, msgSeq &&& 0xFF,
   flags &&& 0xFF, cmdSet &&& 0xFF, cmdId &&& 0xFF] ++ payload

/-- Embedding of `buildMessage` (src/protocol/constants.mjs lines 128-170).
The sequence counter (module-level `msgSeq`, used by `buf.writeUInt16BE
(msgSeq++, off)`) is threaded explicitly: the result pairs the produced
buffer with the post-increment counter value.  Node's `writeUInt16LE` /
`writeUInt16BE` validate their argument against `[0, 0xFFFF]` and throw
`ERR_OUT_OF_RANGE` otherwise; that failure is embedded as `none`.
Byte stores into the buffer coerce modulo 256 (`&&& 0xFF`).  The trailing
CRC-16 is computed over every byte written so far (`bmBody`) and appended
as two LE bytes. -/
def buildMessage (target flags cmdSet cmdId : Nat) (payload : List Nat)
    (msgSeq : Nat) : Option (List Nat × Nat) :=
  if target > 0xFFFF ∨ msgSeq > 0xFFFF then none
  else some
    (bmBody target flags cmdSet cmdId payload msgSeq ++
      [computeCrc16 (bmBody target flags cmdSet cmdId payload msgSeq) &&& 0xFF,
       (computeCrc16 (bmBody target flags cmdSet cmdId payload msgSeq) >>> 8) &&& 0xFF],
     msgSeq + 1)

/-- The full encoded frame produced by a successful `buildMessage` call. -/
def builtFrame (target flags cmdSet cmdId : Nat) (payload : List Nat)
    (msgSeq : Nat) : List Nat :=
  bmBody target flags cmdSet cmdId payload msgSeq ++
    [computeCrc16 (bmBody target flags cmdSet cmdId payload msgSeq) &&& 0xFF,
     (computeCrc16 (bmBody target flags cmdSet cmdId payload msgSeq) >>> 8) &&& 0xFF]

/-- Model of `resetSequence` (src/protocol/constants.mjs lines 118-120):
the module-level counter is replaced by the given value. -/
def resetSequence (val : Nat := 0x0100) : Nat := val

/-- Initial value of the module-level `msgSeq` counter. -/
def msgSeqInit : Nat := 0x0100

-- ═══════════════════════════ Stream framer ═════════════════════════════════

/-- JavaScript `buffer.indexOf(0x55)`: index of the first occurrence of the
magic byte, or -1 when absent. -/
def jsIndexOf (buffer : List Nat) : Int :=
  (buffer.findIdx? (· == 0x55)).elim (-1) (fun i => (i : Int))

/-- One-loop-iteration-per-fuel-unit embedding of the `while` loop of
`parseStream` (src/protocol/constants.mjs lines 193-221).  `none` means
the fuel ran out before the loop exited; `parseStream_terminates` below
proves that `buffer.length + 1` units always suffice, which is exactly the
termination argument for the source loop (each iteration that continues
strictly shrinks the buffer).  The tail accumulation embeds
`if (msg) messages.push(msg)` through `Option.elim`, and a fuel-exhausted
recursive call propagates `none` through `Option.map`. -/
def parseStreamGo : Nat → List Nat → Option (List Frame × List Nat)
  | 0, _ => none
  | fuel + 1, buffer =>
    if buffer.length < 13 then some ([], buffer)
    else if jsIndexOf buffer = -1 then some ([], [])
    else if (buffer.drop (jsIndexOf buffer).toNat).length < 4 then
      some ([], buffer.drop (jsIndexOf buffer).toNat)
    else if lenField (buffer.drop (jsIndexOf buffer).toNat) < 13 ∨
        lenField (buffer.drop (jsIndexOf buffer).toNat) > 1024 then
      parseStreamGo fuel ((buffer.drop (jsIndexOf buffer).toNat).drop 1)
    else if (buffer.drop (jsIndexOf buffer).toNat).length <
        lenField (buffer.drop (jsIndexOf buffer).toNat) then
      some ([], buffer.drop (jsIndexOf buffer).toNat)
    else
      (parseStreamGo fuel ((buffer.drop (jsIndexOf buffer).toNat).drop
          (lenField (buffer.drop (jsIndexOf buffer).toNat)))).map
        (fun r =>
          ((parseMessage ((buffer.drop (jsIndexOf buffer).toNat).take
              (lenField (buffer.drop (jsIndexOf buffer).toNat)))).elim
            r.1 (fun m => m :: r.1), r.2))

/-- Embedding of `parseStream`: run the loop with enough fuel for every
iteration (the loop always terminates within `buffer.length + 1`
iterations; see `parseStreamGo_fuel`). -/
def parseStream (buffer : List Nat) : List Frame × List Nat :=
  (parseStreamGo (buffer.length + 1) buffer).getD ([], buffer)

/-- Structural validity of an encoded frame, per spec §3: magic sentinel,
length field equal to the actual byte count, length bounds, byte-valued
entries.  The decoder is permissive about checksums, so theorems stated
over this predicate in particular cover every frame whose checksums are
also valid. -/
def ValidFrame (b : List Nat) : Prop :=
  b.getD 0 0 = 0x55 ∧ lenField b = b.length ∧ 13 ≤ b.length ∧
    b.length ≤ 1024 ∧ ∀ x ∈ b, x < 256

instance (b : List Nat) : Decidable (ValidFrame b) := by
  unfold ValidFrame; infer_instance

-- ═══════════════════════════ Pairing flow (OsmoConnection) ═════════════════

/-- Events emitted by `OsmoConnection` that the pairing claims mention.
`gimbalRouted` stands for forwarding to `this.gimbal.handleMessage`. -/
inductive ConnEvent where
  | pairing
  | paired (alreadyPaired : Bool)
  | pairingRequired
  | pairingTimeout
  | battery (level : Nat)
  | gimbalRouted (m : Frame)
  | rawMessage (m : Frame)
deriving DecidableEq, Repr

/-- Mutable connection state touched by `OsmoConnection._handleMessage`:
the `_paired` flag and the `_battery` level. -/
structure ConnState where
  paired : Bool
  battery : Option Nat
deriving DecidableEq, Repr

/-- Embedding of `OsmoConnection._handleMessage` (routing by command set;
WiFi-commandSet pairing responses may set the `_paired` flag).  The status
byte for a `SET_PAIRING_PIN` response is `payload[1]` when the payload has
at least 2 bytes, else `payload[0]`; an out-of-range read is JavaScript
`undefined`, which compares unequal to every status value, embedded here
via `Option`. -/
def handleMessage (st : ConnState) (msg : Frame) : ConnState × List ConnEvent :=
  if msg.cmdSet = CMD_SET_GIMBAL then (st, [ConnEvent.gimbalRouted msg])
  else if msg.cmdSet = CMD_SET_WIFI then
    if msg.cmdId = WIFI_CMD_SET_PAIRING_PIN ∧ msg.flags &&& 0x80 ≠ 0 then
      if (if 2 ≤ msg.payload.length then some (msg.payload.getD 1 0)
          else msg.payload.head?) = some 0x01 then
        ({ st with paired := true }, [ConnEvent.paired true])
      else if (if 2 ≤ msg.payload.length then some (msg.payload.getD 1 0)
          else msg.payload.head?) = some 0x02 then
        (st, [ConnEvent.pairingRequired])
      else (st, [])
    else if msg.cmdId = WIFI_CMD_PAIRING_APPROVED ∧ msg.payload.head? = some 0x01 then
      ({ st with paired := true }, [ConnEvent.paired false])
    else (st, [])
  else if msg.cmdSet = CMD_SET_BATTERY ∧ 1 ≤ msg.payload.length then
    ({ st with battery := some (msg.payload.getD 0 0) },
     [ConnEvent.battery (msg.payload.getD 0 0)])
  else (st, [ConnEvent.rawMessage msg])

/-- Whether a message flips the `_paired` flag; derived from
`handleMessage` itself (the branches that set the flag do not read the
current state). -/
def setsPaired (msg : Frame) : Bool :=
  (handleMessage ⟨false, none⟩ msg).1.paired

/-- Process all messages delivered during one 500ms poll interval, in
arrival order (each runs `_handleMessage`), accumulating emitted events. -/
def processBatch : ConnState → List Frame → ConnState × List ConnEvent
  | st, [] => (st, [])
  | st, m :: rest =>
    ((processBatch (handleMessage st m).1 rest).1,
     (handleMessage st m).2 ++ (processBatch (handleMessage st m).1 rest).2)

/-- Embedding of the bounded wait loop of `OsmoConnection._pair`
(`for (let i = 0; i < 30 && !this._paired; i++) await sleep(500)`): each
fuel unit is one poll; `batches` lists the messages the transport delivers
during each successive 500ms sleep. -/
def pairPoll : Nat → ConnState → List (List Frame) → ConnState × List ConnEvent
  | 0, st, _ => (st, [])
  | n + 1, st, batches =>
    if st.paired then (st, [])
    else
      ((pairPoll n (processBatch st (batches.headD [])).1 batches.tail).1,
       (processBatch st (batches.headD [])).2 ++
         (pairPoll n (processBatch st (batches.headD [])).1 batches.tail).2)

/-- Embedding of the observable outcome of `OsmoConnection._pair` after the
credentials write: the `pairing` event, 30 polls of the `_paired` flag, a
`pairingTimeout` event when the flag never became true, and the flag as
return value.  Starts from a fresh connection (`_paired = false`). -/
def pairFlow (batches : List (List Frame)) : Bool × List ConnEvent :=
  if (pairPoll 30 ⟨false, none⟩ batches).1.paired then
    (true, ConnEvent.pairing :: (pairPoll 30 ⟨false, none⟩ batches).2)
  else
    (false, ConnEvent.pairing :: (pairPoll 30 ⟨false, none⟩ batches).2 ++
      [ConnEvent.pairingTimeout])

/-- A battery telemetry frame used to exercise the pairing flow on a
message that can never set the paired flag. -/
def demoBatteryFrame : Frame :=
  { length := 14, sender := 4, receiver := 2, msgId := 0, flags := 0xC0,
    cmdSet := 0x06, cmdId := 0x01, payload := [80], raw := [] }

-- ═══════════════════════════ Sanity checks (concrete evaluation) ═══════════

example : (buildMessage 0x0402 0x40 0x04 0x05 [] 0x0100).isSome := by decide

example :
    (buildMessage 0x0402 0x40 0x04 0x05 [] 0x0100).map (fun r => r.1.length) =
      some 13 := by decide

example :
    ((buildMessage 0x0402 0x40 0x04 0x05 [1, 2, 3] 0x0100).bind
        (fun r => parseMessage r.1)).map (fun f => f.payload) = some [1, 2, 3] := by
  decide

example :
    parseStream [0x55, 14, 4, 0, 2, 4, 1, 0, 0x40, 4, 5, 0x55, 9, 9] =
      ([{ length := 14, sender := 2, receiver := 4, msgId := 256, flags := 0x40,
          cmdSet := 4, cmdId := 5, payload := [0x55],
          raw := [0x55, 14, 4, 0, 2, 4, 1, 0, 0x40, 4, 5, 0x55, 9, 9] }], []) := by
  decide

-- ═══════════════════════════ Byte arithmetic helpers ═══════════════════════

lemma and_0xFF (x : Nat) : x &&& 0xFF = x % 256 := by
  have h := Nat.and_pow_two_sub_one_eq_mod x 8
  norm_num at h
  exact h

lemma shiftRight8 (x : Nat) : x >>> 8 = x / 256 := by
  have h := Nat.shiftRight_eq_div_pow x 8
  norm_num at h
  exact h

/-- The 10-bit length field reconstructed by the decoder from the two bytes
the encoder wrote equals the encoded total length modulo 1024. -/
lemma lenField_encode_eq : ∀ t, t < 1025 →
    ((t &&& 0xFF) ||| (((((t >>> 8) &&& 0x03) ||| (1 <<< 2)) &&& 0x03) <<< 8)) =
      t % 1024 := by
  decide

-- ═══════════════════════════ Built-frame structure lemmas ══════════════════

lemma buildMessage_eq (target flags cmdSet cmdId msgSeq : Nat) (payload : List Nat)
    (h : ¬(target > 0xFFFF ∨ msgSeq > 0xFFFF)) :
    buildMessage target flags cmdSet cmdId payload msgSeq =
      some (builtFrame target flags cmdSet cmdId payload msgSeq, msgSeq + 1) := by
  unfold buildMessage builtFrame
  rw [if_neg h]

lemma bmBody_length (target flags cmdSet cmdId msgSeq : Nat) (payload : List Nat) :
    (bmBody target flags cmdSet cmdId payload msgSeq).length = 11 + payload.length := by
  simp [bmBody]
  omega

lemma builtFrame_length (target flags cmdSet cmdId msgSeq : Nat) (payload : List Nat) :
    (builtFrame target flags cmdSet cmdId payload msgSeq).length = 13 + payload.length := by
  simp [builtFrame, bmBody]
  omega

lemma builtFrame_getD0 (target flags cmdSet cmdId msgSeq : Nat) (payload : List Nat) :
    (builtFrame target flags cmdSet cmdId payload msgSeq).getD 0 0 = 0x55 := rfl

lemma builtFrame_getD4 (target flags cmdSet cmdId msgSeq : Nat) (payload : List Nat) :
    (builtFrame target flags cmdSet cmdId payload msgSeq).getD 4 0 = target &&& 0xFF := rfl

lemma builtFrame_getD5 (target flags cmdSet cmdId msgSeq : Nat) (payload : List Nat) :
    (builtFrame target flags cmdSet cmdId payload msgSeq).getD 5 0 =
      (target >>> 8) &&& 0xFF := rfl

lemma builtFrame_getD6 (target flags cmdSet cmdId msgSeq : Nat) (payload : List Nat) :
    (builtFrame target flags cmdSet cmdId payload msgSeq).getD 6 0 =
      (msgSeq >>> 8) &&& 0xFF := rfl

lemma builtFrame_getD7 (target flags cmdSet cmdId msgSeq : Nat) (payload : List Nat) :
    (builtFrame target flags cmdSet cmdId payload msgSeq).getD 7 0 = msgSeq &&& 0xFF := rfl

lemma builtFrame_getD8 (target flags cmdSet cmdId msgSeq : Nat) (payload : List Nat) :
    (builtFrame target flags cmdSet cmdId payload msgSeq).getD 8 0 = flags &&& 0xFF := rfl

lemma builtFrame_getD9 (target flags cmdSet cmdId msgSeq : Nat) (payload : List Nat) :
    (builtFrame target flags cmdSet cmdId payload msgSeq).getD 9 0 = cmdSet &&& 0xFF := rfl

lemma builtFrame_getD10 (target flags cmdSet cmdId msgSeq : Nat) (payload : List Nat) :
    (builtFrame target flags cmdSet cmdId payload msgSeq).getD 10 0 = cmdId &&& 0xFF := rfl

lemma lenField_builtFrame (target flags cmdSet cmdId msgSeq : Nat) (payload : List Nat)
    (hp : payload.length ≤ 1011) :
    lenField (builtFrame target flags cmdSet cmdId payload msgSeq) =
      (13 + payload.length) % 1024 := by
  exact lenField_encode_eq (13 + payload.length) (by omega)

lemma take_drop_mid (l1 l2 l3 : List Nat) (n m : Nat) (hn : n = l1.length)
    (hm : m = l1.length + l2.length) :
    (((l1 ++ l2) ++ l3).take m).drop n = l2 := by
  subst hn hm
  rw [← List.length_append l1 l2, List.take_left, List.drop_left]

lemma builtFrame_payload (target flags cmdSet cmdId msgSeq : Nat) (payload : List Nat)
    (hp : payload.length ≤ 1011) :
    jsSlice (builtFrame target flags cmdSet cmdId payload msgSeq) 11
      ((lenField (builtFrame target flags cmdSet cmdId payload msgSeq) : Int) - 2) =
      payload := by
  have hlf := lenField_builtFrame target flags cmdSet cmdId msgSeq payload hp
  have hlen := builtFrame_length target flags cmdSet cmdId msgSeq payload
  have hkey : jsSlice (builtFrame target flags cmdSet cmdId payload msgSeq) 11
      ((lenField (builtFrame target flags cmdSet cmdId payload msgSeq) : Int) - 2) =
      ((builtFrame target flags cmdSet cmdId payload msgSeq).take
        (11 + payload.length)).drop 11 := by
    unfold jsSlice
    rw [hlf, hlen]
    rcases Nat.lt_or_ge payload.length 1011 with hc | hc
    · rw [Nat.mod_eq_of_lt (show 13 + payload.length < 1024 by omega)]
      rw [if_neg (by omega), if_neg (by omega)]
      have h1 : (min (((13 + payload.length : Nat) : Int) - 2)
          ((13 + payload.length : Nat) : Int)).toNat = 11 + payload.length := by omega
      have h2 : (min (11 : Int) ((13 + payload.length : Nat) : Int)).toNat = 11 := by
        omega
      rw [h1, h2]
    · have h1011 : payload.length = 1011 := le_antisymm hp hc
      rw [h1011]
      norm_num
      rfl
  rw [hkey]
  unfold builtFrame bmBody
  exact take_drop_mid _ payload _ 11 (11 + payload.length) rfl rfl

lemma parseMessage_some (data : List Nat) (h13 : 13 ≤ data.length)
    (h0 : data.getD 0 0 = 0x55) (hl : lenField data ≤ data.length) :
    parseMessage data = some
      { length := lenField data
        sender := data.getD 4 0
        receiver := data.getD 5 0
        msgId := 256 * data.getD 6 0 + data.getD 7 0
        flags := data.getD 8 0
        cmdSet := data.getD 9 0
        cmdId := data.getD 10 0
        payload := jsSlice data 11 ((lenField data : Int) - 2)
        raw := jsSlice data 0 (lenField data : Int) } := by
  unfold parseMessage
  rw [if_neg (by push_neg; exact ⟨by omega, h0⟩), if_neg (by omega)]

-- ═══════════════════════════ C1: encode/decode round trip ══════════════════

/-- C1.  Round-trip: for every 16-bit target, protocol flag, byte-valued
command set and command id, payload of at most 1011 bytes, and any 16-bit
value held by the sequence generator before the call (the generator is a
16-bit counter, spec §4.3), `buildMessage` succeeds and `parseMessage` of
the produced buffer returns a frame whose sender/receiver are the low/high
bytes of the target, whose flags, command set, command id and payload equal
the inputs exactly, and whose message id equals the sequence value held
immediately before the call. -/
theorem duml_round_trip (target flags cmdSet cmdId msgSeq : Nat) (payload : List Nat)
    (ht : target < 0x10000)
    (hf : flags = 0x40 ∨ flags = 0xC0 ∨ flags = 0x00)
    (hcs : cmdSet < 256) (hci : cmdId < 256)
    (hp : payload.length ≤ 1011) (hs : msgSeq < 0x10000) :
    ∃ buf seq, buildMessage target flags cmdSet cmdId payload msgSeq = some (buf, seq) ∧
      ∃ f, parseMessage buf = some f ∧
        f.sender = target % 256 ∧ f.receiver = target / 256 ∧ f.flags = flags ∧
        f.cmdSet = cmdSet ∧ f.cmdId = cmdId ∧ f.payload = payload ∧
        f.msgId = msgSeq := by
  have hflt : flags < 256 := by rcases hf with h | h | h <;> omega
  have hbm := buildMessage_eq target flags cmdSet cmdId msgSeq payload (by omega)
  refine ⟨_, _, hbm, ?_⟩
  have hlen := builtFrame_length target flags cmdSet cmdId msgSeq payload
  have hlf := lenField_builtFrame target flags cmdSet cmdId msgSeq payload hp
  have hpm := parseMessage_some (builtFrame target flags cmdSet cmdId payload msgSeq)
    (by omega) (builtFrame_getD0 target flags cmdSet cmdId msgSeq payload)
    (by rw [hlf, hlen]; exact Nat.mod_le _ _)
  refine ⟨_, hpm, ?_, ?_, ?_, ?_, ?_, ?_, ?_⟩
  · show (builtFrame target flags cmdSet cmdId payload msgSeq).getD 4 0 = target % 256
    rw [builtFrame_getD4, and_0xFF]
  · show (builtFrame target flags cmdSet cmdId payload msgSeq).getD 5 0 = target / 256
    rw [builtFrame_getD5, and_0xFF, shiftRight8]
    omega
  · show (builtFrame target flags cmdSet cmdId payload msgSeq).getD 8 0 = flags
    rw [builtFrame_getD8, and_0xFF]
    omega
  · show (builtFrame target flags cmdSet cmdId payload msgSeq).getD 9 0 = cmdSet
    rw [builtFrame_getD9, and_0xFF]
    omega
  · show (builtFrame target flags cmdSet cmdId payload msgSeq).getD 10 0 = cmdId
    rw [builtFrame_getD10, and_0xFF]
    omega
  · exact builtFrame_payload target flags cmdSet cmdId msgSeq payload hp
  · show 256 * (builtFrame target flags cmdSet cmdId payload msgSeq).getD 6 0 +
        (builtFrame target flags cmdSet cmdId payload msgSeq).getD 7 0 = msgSeq
    rw [builtFrame_getD6, builtFrame_getD7, and_0xFF, and_0xFF, shiftRight8]
    omega

/-- C1 witness: the round trip instantiated at a concrete gimbal request. -/
theorem duml_round_trip_witness :
    0x0402 < 0x10000 ∧
    (∃ buf seq, buildMessage 0x0402 0x40 0x04 0x05 [1, 2, 3] 0x0100 = some (buf, seq) ∧
      ∃ f, parseMessage buf = some f ∧
        f.sender = 0x0402 % 256 ∧ f.receiver = 0x0402 / 256 ∧ f.flags = 0x40 ∧
        f.cmdSet = 0x04 ∧ f.cmdId = 0x05 ∧ f.payload = [1, 2, 3] ∧
        f.msgId = 0x0100) :=
  ⟨by decide,
   duml_round_trip 0x0402 0x40 0x04 0x05 0x0100 [1, 2, 3] (by decide)
     (Or.inl rfl) (by decide) (by decide) (by decide) (by decide)⟩

-- ═══════════════════════════ C2: sequence counter behaviour ════════════════

/-- C2.  After `resetSequence(0x0100)`, consecutive `buildMessage` calls
carry sequence ids 0x0100, 0x0101, 0x0102 (read back from the two
big-endian bytes at offsets 6 and 7, with the threaded counter advancing by
one each call).  However the claimed 16-bit wraparound does not happen: the
call that carries 0xFFFF leaves the counter at 0x10000 (`msgSeq++` has no
mask), and the next call fails — `buf.writeUInt16BE(0x10000, 6)` throws
`ERR_OUT_OF_RANGE` (embedded as `none`) instead of producing a frame with
sequence id 0x0000. -/
theorem sequence_monotonic_then_overflow :
    ((buildMessage TARGET_APP_TO_GIMBAL FLAG_REQUEST 0x04 0x05 []
        (resetSequence 0x0100)).map
      (fun r => (256 * r.1.getD 6 0 + r.1.getD 7 0, r.2)) = some (0x0100, 0x0101)) ∧
    ((buildMessage TARGET_APP_TO_GIMBAL FLAG_REQUEST 0x04 0x05 [] 0x0101).map
      (fun r => (256 * r.1.getD 6 0 + r.1.getD 7 0, r.2)) = some (0x0101, 0x0102)) ∧
    ((buildMessage TARGET_APP_TO_GIMBAL FLAG_REQUEST 0x04 0x05 [] 0x0102).map
      (fun r => (256 * r.1.getD 6 0 + r.1.getD 7 0, r.2)) = some (0x0102, 0x0103)) ∧
    ((buildMessage TARGET_APP_TO_GIMBAL FLAG_REQUEST 0x04 0x05 [] 0xFFFF).map
      (fun r => (256 * r.1.getD 6 0 + r.1.getD 7 0, r.2)) = some (0xFFFF, 0x10000)) ∧
    buildMessage TARGET_APP_TO_GIMBAL FLAG_REQUEST 0x04 0x05 [] 0x10000 = none := by
  refine ⟨?_, ?_, ?_, ?_, ?_⟩ <;> decide

-- ═══════════════════════════ C3: encode length exactness ═══════════════════

/-- C3 counterexample: a payload of exactly 1011 bytes gives a total length
of 1024, which does not fit the 10-bit length field; the encoded field
wraps to 0 instead of the claimed 13 + 1011 = 1024. -/
theorem encode_length_field_overflow :
    ((buildMessage 0x0402 0x40 0x04 0x05 (List.replicate 1011 0) 0x0100).map
      (fun r => lenField r.1) = some 0) ∧
    ((buildMessage 0x0402 0x40 0x04 0x05 (List.replicate 1011 0) 0x0100).map
      (fun r => lenField r.1) ≠ some (13 + 1011)) := by
  constructor <;> decide

/-- C3 (amended).  For every payload of at most 1010 bytes (so that the
total length 13 + len fits the 10-bit field), `buildMessage` returns a
buffer of exactly 13 + len bytes whose byte 0 is 0x55 and whose decoded
10-bit length field equals 13 + len; at 1011 payload bytes the buffer and
magic are still produced but the length field wraps modulo 1024 (see the
counterexample). -/
theorem encode_length_exact (target flags cmdSet cmdId msgSeq : Nat)
    (payload : List Nat) (ht : target ≤ 0xFFFF) (hs : msgSeq ≤ 0xFFFF)
    (hp : payload.length ≤ 1010) :
    ∃ buf seq, buildMessage target flags cmdSet cmdId payload msgSeq = some (buf, seq) ∧
      buf.length = 13 + payload.length ∧ buf.getD 0 0 = 0x55 ∧
      lenField buf = 13 + payload.length := by
  have hbm := buildMessage_eq target flags cmdSet cmdId msgSeq payload (by omega)
  refine ⟨_, _, hbm, builtFrame_length target flags cmdSet cmdId msgSeq payload,
    builtFrame_getD0 target flags cmdSet cmdId msgSeq payload, ?_⟩
  rw [lenField_builtFrame target flags cmdSet cmdId msgSeq payload (by omega)]
  omega

/-- C3 witness: the zero-payload frame named by the claim — encoding
`(target 0x0402, flags 0x40, commandSet 0x04, commandId 0x05, payload [])`
yields exactly 13 bytes, byte 0 = 0x55, and length field 13. -/
theorem encode_length_exact_witness :
    ([] : List Nat).length ≤ 1010 ∧
    (∃ buf seq, buildMessage 0x0402 0x40 0x04 0x05 [] 0x0100 = some (buf, seq) ∧
      buf.length = 13 + ([] : List Nat).length ∧ buf.getD 0 0 = 0x55 ∧
      lenField buf = 13 + ([] : List Nat).length) :=
  ⟨by decide,
   encode_length_exact 0x0402 0x40 0x04 0x05 0x0100 [] (by decide) (by decide)
     (by decide)⟩

-- ═══════════════════════════ Framer helper lemmas ══════════════════════════

lemma findIdx?_magic_append (junk b : List Nat) (hj : ∀ x ∈ junk, x ≠ 0x55)
    (hb : b.getD 0 0 = 0x55) (h1 : 1 ≤ b.length) :
    (junk ++ b).findIdx? (· == 0x55) = some junk.length := by
  induction junk with
  | nil =>
    cases b with
    | nil => simp at h1
    | cons a t =>
      have ha : a = 0x55 := by simpa using hb
      subst ha
      simp [List.findIdx?_cons]
  | cons x xs ih =>
    have hx : x ≠ 0x55 := hj x (by simp)
    have ih' := ih (fun y hy => hj y (by simp [hy]))
    simp [List.findIdx?_cons, hx, List.findIdx?_succ, ih']

lemma jsIndexOf_append (junk b : List Nat) (hj : ∀ x ∈ junk, x ≠ 0x55)
    (hb : b.getD 0 0 = 0x55) (h1 : 1 ≤ b.length) :
    jsIndexOf (junk ++ b) = (junk.length : Int) := by
  unfold jsIndexOf
  rw [findIdx?_magic_append junk b hj hb h1, Option.elim_some]

lemma jsIndexOf_head (b : List Nat) (hb : b.getD 0 0 = 0x55) (h1 : 1 ≤ b.length) :
    jsIndexOf b = 0 := by
  have h := jsIndexOf_append [] b (by simp) hb h1
  simpa using h

lemma parseStreamGo_isSome : ∀ fuel buffer, buffer.length < fuel →
    (parseStreamGo fuel buffer).isSome = true := by
  intro fuel
  induction fuel with
  | zero => intro b hb; omega
  | succ n ih =>
    intro b hb
    unfold parseStreamGo
    by_cases h13 : b.length < 13
    · rw [if_pos h13]; rfl
    rw [if_neg h13]
    by_cases hidx : jsIndexOf b = -1
    · rw [if_pos hidx]; rfl
    rw [if_neg hidx]
    by_cases h4 : (b.drop (jsIndexOf b).toNat).length < 4
    · rw [if_pos h4]; rfl
    rw [if_neg h4]
    have hd1 := List.length_drop (jsIndexOf b).toNat b
    by_cases hbad : lenField (b.drop (jsIndexOf b).toNat) < 13 ∨
        lenField (b.drop (jsIndexOf b).toNat) > 1024
    · rw [if_pos hbad]
      apply ih
      have hd2 := List.length_drop 1 (b.drop (jsIndexOf b).toNat)
      omega
    rw [if_neg hbad]
    by_cases hlt : (b.drop (jsIndexOf b).toNat).length <
        lenField (b.drop (jsIndexOf b).toNat)
    · rw [if_pos hlt]; rfl
    rw [if_neg hlt]
    have hrec := ih ((b.drop (jsIndexOf b).toNat).drop
        (lenField (b.drop (jsIndexOf b).toNat)))
      (by
        have hd2 := List.length_drop (lenField (b.drop (jsIndexOf b).toNat))
          (b.drop (jsIndexOf b).toNat)
        omega)
    obtain ⟨r, hr⟩ := Option.isSome_iff_exists.mp hrec
    rw [hr, Option.map_some']
    rfl

lemma parseStreamGo_mono : ∀ fuel fuel' buffer r, fuel ≤ fuel' →
    parseStreamGo fuel buffer = some r → parseStreamGo fuel' buffer = some r := by
  intro fuel
  induction fuel with
  | zero => intro f' b r _ h; simp [parseStreamGo] at h
  | succ n ih =>
    intro f' b r hle h
    obtain ⟨m, rfl⟩ : ∃ m, f' = m + 1 := ⟨f' - 1, by omega⟩
    unfold parseStreamGo at h ⊢
    by_cases h13 : b.length < 13
    · rw [if_pos h13] at h ⊢; exact h
    rw [if_neg h13] at h ⊢
    by_cases hidx : jsIndexOf b = -1
    · rw [if_pos hidx] at h ⊢; exact h
    rw [if_neg hidx] at h ⊢
    by_cases h4 : (b.drop (jsIndexOf b).toNat).length < 4
    · rw [if_pos h4] at h ⊢; exact h
    rw [if_neg h4] at h ⊢
    by_cases hbad : lenField (b.drop (jsIndexOf b).toNat) < 13 ∨
        lenField (b.drop (jsIndexOf b).toNat) > 1024
    · rw [if_pos hbad] at h ⊢
      exact ih m _ r (by omega) h
    rw [if_neg hbad] at h ⊢
    by_cases hlt : (b.drop (jsIndexOf b).toNat).length <
        lenField (b.drop (jsIndexOf b).toNat)
    · rw [if_pos hlt] at h ⊢; exact h
    rw [if_neg hlt] at h ⊢
    cases hrec : parseStreamGo n ((b.drop (jsIndexOf b).toNat).drop
        (lenField (b.drop (jsIndexOf b).toNat))) with
    | none => rw [hrec] at h; simp at h
    | some rr =>
      rw [hrec] at h
      rw [ih m _ rr (by omega) hrec]
      exact h

lemma parseStream_eq_of_go (buffer : List Nat) (fuel : Nat)
    (r : List Frame × List Nat) (h : parseStreamGo fuel buffer = some r) :
    parseStream buffer = r := by
  unfold parseStream
  rcases Nat.le_total fuel (buffer.length + 1) with hf | hf
  · rw [parseStreamGo_mono fuel (buffer.length + 1) buffer r hf h]
    rfl
  · have h2 := parseStreamGo_isSome (buffer.length + 1) buffer (by omega)
    obtain ⟨r2, hr2⟩ := Option.isSome_iff_exists.mp h2
    have h3 := parseStreamGo_mono (buffer.length + 1) fuel buffer r2 hf hr2
    rw [h3] at h
    cases h
    rw [hr2]
    rfl

-- ═══════════════════════════ C10: framer termination ═══════════════════════

/-- C10.  The `parseStream` loop terminates on every finite input: running
the loop with fuel `buffer.length + 1` (one unit per iteration) never
exhausts the fuel — every iteration either exits or strictly decreases the
buffer length, so the loop is well-founded on the buffer length and
`parseStream` is total. -/
theorem parseStream_terminates (buffer : List Nat) :
    parseStreamGo (buffer.length + 1) buffer = some (parseStream buffer) := by
  have h := parseStreamGo_isSome (buffer.length + 1) buffer (by omega)
  obtain ⟨r, hr⟩ := Option.isSome_iff_exists.mp h
  rw [hr, parseStream_eq_of_go buffer (buffer.length + 1) r hr]

lemma jsSlice_zero_take (data : List Nat) (n : Nat) (h : n ≤ data.length) :
    jsSlice data 0 (n : Int) = data.take n := by
  unfold jsSlice
  rw [if_neg (show ¬((n : Int) < 0) by omega),
    if_neg (show ¬((0 : Int) < 0) by omega)]
  have h1 : (min ((n : Nat) : Int) ((data.length : Int))).toNat = n := by omega
  have h2 : (min (0 : Int) ((data.length : Int))).toNat = 0 := by omega
  rw [h1, h2, List.drop_zero]

lemma parseMessage_inv (data : List Nat) (m : Frame)
    (h : parseMessage data = some m) :
    13 ≤ data.length ∧ data.getD 0 0 = 0x55 ∧ lenField data ≤ data.length ∧
      m.length = lenField data ∧ m.raw = data.take (lenField data) := by
  unfold parseMessage at h
  by_cases h1 : data.length < 13 ∨ data.getD 0 0 ≠ 0x55
  · rw [if_pos h1] at h; cases h
  rw [if_neg h1] at h
  by_cases h2 : data.length < lenField data
  · rw [if_pos h2] at h; cases h
  rw [if_neg h2] at h
  push_neg at h1
  obtain ⟨h13, h0⟩ := h1
  have hm := Option.some.inj h
  refine ⟨by omega, h0, by omega, by rw [← hm], ?_⟩
  rw [← hm]
  exact jsSlice_zero_take data (lenField data) (by omega)

lemma getD_take (l : List Nat) (n i : Nat) (h : i < n) :
    (l.take n).getD i 0 = l.getD i 0 := by
  rw [List.getD_eq_getElem?_getD, List.getD_eq_getElem?_getD, List.getElem?_take,
    if_pos h]

lemma lenField_take (l : List Nat) (n : Nat) (hn : 3 ≤ n) :
    lenField (l.take n) = lenField l := by
  unfold lenField
  rw [getD_take l n 1 (by omega), getD_take l n 2 (by omega)]

/-- One loop iteration on `junk ++ b`, where `junk` contains no magic byte
and `b` is a structurally valid frame: the junk is discarded, exactly
`b.length` bytes are consumed as one frame, and the loop finishes with an
empty remainder. -/
lemma parseStreamGo_frame (junk b : List Nat) (k : Nat) (m : Frame)
    (hj : ∀ x ∈ junk, x ≠ 0x55)
    (h0 : b.getD 0 0 = 0x55) (hlen : lenField b = b.length)
    (h13 : 13 ≤ b.length) (hmax : b.length ≤ 1024)
    (hm : parseMessage b = some m) :
    parseStreamGo (k + 2) (junk ++ b) = some ([m], []) := by
  have hidx := jsIndexOf_append junk b hj h0 (by omega)
  have hlenapp : (junk ++ b).length = junk.length + b.length :=
    List.length_append _ _
  unfold parseStreamGo
  rw [if_neg (by omega)]
  rw [hidx]
  rw [if_neg (by omega)]
  rw [Int.toNat_natCast]
  rw [List.drop_left]
  rw [hlen]
  rw [if_neg (by omega)]
  rw [if_neg (by omega)]
  rw [if_neg (by omega)]
  rw [List.drop_length, List.take_length]
  rw [show parseStreamGo (k + 1) ([] : List Nat) = some ([], []) from by
    unfold parseStreamGo; rw [if_pos (by simp)]]
  rw [hm, Option.map_some', Option.elim_some]

lemma parseStream_short (buffer : List Nat) (h : buffer.length < 13) :
    parseStream buffer = ([], buffer) := by
  apply parseStream_eq_of_go buffer (buffer.length + 1)
  unfold parseStreamGo
  rw [if_pos h]

/-- A structurally valid frame is decoded by `parseStream` as exactly one
frame with empty remainder, and its `raw` bytes are the whole input. -/
lemma parseStream_validFrame (b : List Nat) (hv : ValidFrame b) :
    ∃ f, parseMessage b = some f ∧ parseStream b = ([f], []) ∧ f.raw = b := by
  obtain ⟨h0, hlen, h13, hmax, hbytes⟩ := hv
  have hpm := parseMessage_some b (by omega) h0 (by omega)
  refine ⟨_, hpm, ?_, ?_⟩
  · have hgo := parseStreamGo_frame [] b b.length _ (by simp) h0 hlen (by omega)
      hmax hpm
    rw [List.nil_append] at hgo
    exact parseStream_eq_of_go _ _ _ hgo
  · show jsSlice b 0 ((lenField b : Int)) = b
    rw [jsSlice_zero_take b (lenField b) (by omega), hlen, List.take_length]

-- ═══════════════════════════ C4: spurious magic inside payload ═════════════

/-- C4.  A valid encoded frame whose payload region contains the magic byte
0x55 is still parsed by `parseStream` as a single frame covering the whole
input (never split at the interior 0x55), because once a header with an
in-bounds length field is found exactly that many bytes are consumed; and
whenever a candidate magic byte at the head of the buffer carries a length
field below 13 or above 1024, exactly one byte is discarded before
rescanning. -/
theorem spurious_magic_in_payload :
    (∀ b, ValidFrame b → 0x55 ∈ jsSlice b 11 ((lenField b : Int) - 2) →
      ∃ f, parseStream b = ([f], []) ∧ f.raw = b) ∧
    (∀ buffer, 13 ≤ buffer.length → buffer.getD 0 0 = 0x55 →
      (lenField buffer < 13 ∨ lenField buffer > 1024) →
      parseStream buffer = parseStream (buffer.drop 1)) := by
  constructor
  · intro b hv _
    obtain ⟨f, _, h1, h2⟩ := parseStream_validFrame b hv
    exact ⟨f, h1, h2⟩
  · intro buffer h13 h0 hbad
    have hidx := jsIndexOf_head buffer h0 (by omega)
    have hstep : parseStreamGo (buffer.length + 1) buffer =
        parseStreamGo buffer.length (buffer.drop 1) := by
      conv_lhs => unfold parseStreamGo
      rw [if_neg (by omega), hidx]
      rw [if_neg (by omega)]
      rw [show ((0 : Int)).toNat = 0 from rfl]
      rw [List.drop_zero]
      rw [if_neg (by omega), if_pos hbad]
    have hs := parseStreamGo_isSome buffer.length (buffer.drop 1)
      (by have := List.length_drop 1 buffer; omega)
    obtain ⟨r, hr⟩ := Option.isSome_iff_exists.mp hs
    have e1 : parseStream buffer = r :=
      parseStream_eq_of_go buffer (buffer.length + 1) r (by rw [hstep, hr])
    have e2 : parseStream (buffer.drop 1) = r :=
      parseStream_eq_of_go _ buffer.length r hr
    rw [e1, e2]

/-- C4 witness: a 14-byte frame whose single payload byte is 0x55 parses as
one whole frame; a candidate magic byte whose length field is 5 causes a
one-byte discard. -/
theorem spurious_magic_in_payload_witness :
    (0x55 ∈ jsSlice [0x55, 14, 4, 0, 2, 4, 1, 0, 0x40, 4, 5, 0x55, 9, 9] 11
      ((lenField [0x55, 14, 4, 0, 2, 4, 1, 0, 0x40, 4, 5, 0x55, 9, 9] : Int) - 2)) ∧
    (∃ f, parseStream [0x55, 14, 4, 0, 2, 4, 1, 0, 0x40, 4, 5, 0x55, 9, 9] =
        ([f], []) ∧
      f.raw = [0x55, 14, 4, 0, 2, 4, 1, 0, 0x40, 4, 5, 0x55, 9, 9]) ∧
    parseStream [0x55, 5, 4, 0, 2, 4, 1, 0, 0x40, 4, 5, 1, 2, 3] =
      parseStream ([0x55, 5, 4, 0, 2, 4, 1, 0, 0x40, 4, 5, 1, 2, 3].drop 1) :=
  ⟨by decide,
   spurious_magic_in_payload.1 _ (by decide) (by decide),
   spurious_magic_in_payload.2 _ (by decide) (by decide) (by decide)⟩

-- ═══════════════════════════ C5: partial delivery ══════════════════════════

/-- C5.  For every valid 20-byte encoded frame, feeding `parseStream` its
first 5 bytes yields zero frames and a remainder equal to those 5 bytes;
feeding the remainder concatenated with the remaining 15 bytes yields
exactly one decoded frame (the whole frame) and an empty remainder. -/
theorem partial_delivery (b : List Nat) (h20 : b.length = 20) (hv : ValidFrame b) :
    parseStream (b.take 5) = ([], b.take 5) ∧
    ∃ f, parseStream (b.take 5 ++ b.drop 5) = ([f], []) ∧ f.raw = b := by
  constructor
  · exact parseStream_short _ (by rw [List.length_take]; omega)
  · rw [List.take_append_drop]
    obtain ⟨f, _, h1, h2⟩ := parseStream_validFrame b hv
    exact ⟨f, h1, h2⟩

/-- C5 witness: a concrete 20-byte frame delivered as 5 bytes then 15. -/
theorem partial_delivery_witness :
    (([0x55, 20, 4, 0, 2, 4, 1, 0, 0x40, 4, 5, 1, 2, 3, 4, 5, 6, 7, 9, 9] :
        List Nat).length = 20 ∧
      ValidFrame [0x55, 20, 4, 0, 2, 4, 1, 0, 0x40, 4, 5, 1, 2, 3, 4, 5, 6, 7, 9, 9]) ∧
    (parseStream ([0x55, 20, 4, 0, 2, 4, 1, 0, 0x40, 4, 5, 1, 2, 3, 4, 5, 6, 7, 9,
        9].take 5) =
      ([], [0x55, 20, 4, 0, 2, 4, 1, 0, 0x40, 4, 5, 1, 2, 3, 4, 5, 6, 7, 9, 9].take 5) ∧
    ∃ f, parseStream
        ([0x55, 20, 4, 0, 2, 4, 1, 0, 0x40, 4, 5, 1, 2, 3, 4, 5, 6, 7, 9, 9].take 5 ++
         [0x55, 20, 4, 0, 2, 4, 1, 0, 0x40, 4, 5, 1, 2, 3, 4, 5, 6, 7, 9, 9].drop 5) =
        ([f], []) ∧
      f.raw = [0x55, 20, 4, 0, 2, 4, 1, 0, 0x40, 4, 5, 1, 2, 3, 4, 5, 6, 7, 9, 9]) :=
  ⟨⟨by decide, by decide⟩,
   partial_delivery [0x55, 20, 4, 0, 2, 4, 1, 0, 0x40, 4, 5, 1, 2, 3, 4, 5, 6, 7, 9, 9]
     (by decide) (by decide)⟩

-- ═══════════════════════════ C6: resynchronization ═════════════════════════

/-- C6.  Feeding `parseStream` the bytes 0xAA, 0xBB followed by a valid
encoded frame yields exactly one decoded frame whose raw bytes equal that
frame, and an empty remainder: all bytes preceding the first magic byte are
discarded. -/
theorem resynchronization (b : List Nat) (hv : ValidFrame b) :
    ∃ f, parseStream (0xAA :: 0xBB :: b) = ([f], []) ∧ f.raw = b := by
  obtain ⟨h0, hlen, h13, hmax, hbytes⟩ := hv
  have hpm := parseMessage_some b (by omega) h0 (by omega)
  have hgo := parseStreamGo_frame [0xAA, 0xBB] b b.length _ (by decide) h0 hlen
    (by omega) hmax hpm
  refine ⟨_, parseStream_eq_of_go _ (b.length + 2) _ hgo, ?_⟩
  show jsSlice b 0 ((lenField b : Int)) = b
  rw [jsSlice_zero_take b (lenField b) (by omega), hlen, List.take_length]

/-- C6 witness: two junk bytes followed by a concrete 14-byte frame. -/
theorem resynchronization_witness :
    ValidFrame [0x55, 14, 4, 0, 2, 4, 1, 0, 0x40, 4, 5, 7, 9, 9] ∧
    ∃ f, parseStream
        (0xAA :: 0xBB :: [0x55, 14, 4, 0, 2, 4, 1, 0, 0x40, 4, 5, 7, 9, 9]) =
        ([f], []) ∧
      f.raw = [0x55, 14, 4, 0, 2, 4, 1, 0, 0x40, 4, 5, 7, 9, 9] :=
  ⟨by decide, resynchronization _ (by decide)⟩

-- ═══════════════════════════ C8: framer output invariant ═══════════════════

lemma parseStreamGo_inv : ∀ fuel buffer ms rem,
    parseStreamGo fuel buffer = some (ms, rem) →
    (∀ f ∈ ms, f.raw.getD 0 0 = 0x55 ∧ 13 ≤ lenField f.raw ∧
      lenField f.raw ≤ 1024) ∧
    (ms.map Frame.raw).flatten.Sublist buffer := by
  intro fuel
  induction fuel with
  | zero => intro b ms rem h; simp [parseStreamGo] at h
  | succ n ih =>
    intro b ms rem h
    unfold parseStreamGo at h
    by_cases h13 : b.length < 13
    · rw [if_pos h13] at h
      simp only [Option.some.injEq, Prod.mk.injEq] at h
      obtain ⟨hms, _⟩ := h
      subst hms
      exact ⟨by simp, by simp⟩
    rw [if_neg h13] at h
    by_cases hidx : jsIndexOf b = -1
    · rw [if_pos hidx] at h
      simp only [Option.some.injEq, Prod.mk.injEq] at h
      obtain ⟨hms, _⟩ := h
      subst hms
      exact ⟨by simp, by simp⟩
    rw [if_neg hidx] at h
    by_cases h4 : (b.drop (jsIndexOf b).toNat).length < 4
    · rw [if_pos h4] at h
      simp only [Option.some.injEq, Prod.mk.injEq] at h
      obtain ⟨hms, _⟩ := h
      subst hms
      exact ⟨by simp, by simp⟩
    rw [if_neg h4] at h
    by_cases hbad : lenField (b.drop (jsIndexOf b).toNat) < 13 ∨
        lenField (b.drop (jsIndexOf b).toNat) > 1024
    · rw [if_pos hbad] at h
      obtain ⟨ha, hb⟩ := ih _ ms rem h
      refine ⟨ha, hb.trans ?_⟩
      exact (List.drop_sublist 1 _).trans (List.drop_sublist _ b)
    rw [if_neg hbad] at h
    by_cases hlt : (b.drop (jsIndexOf b).toNat).length <
        lenField (b.drop (jsIndexOf b).toNat)
    · rw [if_pos hlt] at h
      simp only [Option.some.injEq, Prod.mk.injEq] at h
      obtain ⟨hms, _⟩ := h
      subst hms
      exact ⟨by simp, by simp⟩
    rw [if_neg hlt] at h
    cases hrec : parseStreamGo n ((b.drop (jsIndexOf b).toNat).drop
        (lenField (b.drop (jsIndexOf b).toNat))) with
    | none => rw [hrec] at h; simp at h
    | some rr =>
      obtain ⟨ms', rem'⟩ := rr
      rw [hrec, Option.map_some'] at h
      simp only [Option.some.injEq, Prod.mk.injEq] at h
      obtain ⟨hms, _⟩ := h
      obtain ⟨ha, hb⟩ := ih _ ms' rem' hrec
      push_neg at hbad
      cases hpm : parseMessage ((b.drop (jsIndexOf b).toNat).take
          (lenField (b.drop (jsIndexOf b).toNat))) with
      | none =>
        rw [hpm, Option.elim_none] at hms
        subst hms
        refine ⟨ha, hb.trans ?_⟩
        exact (List.drop_sublist _ _).trans (List.drop_sublist _ b)
      | some m =>
        rw [hpm, Option.elim_some] at hms
        subst hms
        obtain ⟨hd13, hd0, hdle, hmlen, hmraw⟩ := parseMessage_inv _ m hpm
        have hLF : lenField ((b.drop (jsIndexOf b).toNat).take
            (lenField (b.drop (jsIndexOf b).toNat))) =
            lenField (b.drop (jsIndexOf b).toNat) :=
          lenField_take _ _ (by omega)
        have hraw_eq : m.raw = (b.drop (jsIndexOf b).toNat).take
            (lenField (b.drop (jsIndexOf b).toNat)) := by
          rw [hmraw, hLF, List.take_take]
          simp
        constructor
        · intro f hf
          rcases List.mem_cons.mp hf with hfm | hfm
          · subst hfm
            refine ⟨?_, ?_, ?_⟩
            · rw [hraw_eq]
              exact hraw_eq ▸ hd0
            · rw [hraw_eq, hLF]
              omega
            · rw [hraw_eq, hLF]
              omega
          · exact ha f hfm
        · simp only [List.map_cons, List.flatten_cons]
          have hsub : (m.raw ++ (ms'.map Frame.raw).flatten).Sublist
              ((b.drop (jsIndexOf b).toNat).take
                  (lenField (b.drop (jsIndexOf b).toNat)) ++
                (b.drop (jsIndexOf b).toNat).drop
                  (lenField (b.drop (jsIndexOf b).toNat))) :=
            List.Sublist.append (by rw [hraw_eq]) hb
          refine hsub.trans ?_
          rw [List.take_append_drop]
          exact List.drop_sublist _ b

/-- C8.  Framer output validity: every frame returned by `parseStream` has
raw byte 0 equal to the 0x55 magic and a length field between 13 and 1024,
and the frames appear in arrival order — the concatenation of their raw
bytes is a subsequence of the input buffer (each frame's bytes occur
contiguously, in order, separated only by discarded junk). -/
theorem framer_output_valid (buffer : List Nat) :
    (∀ f ∈ (parseStream buffer).1, f.raw.getD 0 0 = 0x55 ∧
      13 ≤ lenField f.raw ∧ lenField f.raw ≤ 1024) ∧
    ((parseStream buffer).1.map Frame.raw).flatten.Sublist buffer := by
  have h := parseStreamGo_isSome (buffer.length + 1) buffer (by omega)
  obtain ⟨⟨ms, rem⟩, hr⟩ := Option.isSome_iff_exists.mp h
  rw [parseStream_eq_of_go buffer _ _ hr]
  exact parseStreamGo_inv _ buffer ms rem hr

/-- C8 witness: the invariant evaluated on a buffer holding junk, one valid
frame, and a truncated tail. -/
theorem framer_output_valid_witness :
    ((parseStream
        (0x01 :: 0x55 :: 0x02 ::
          [0x55, 14, 4, 0, 2, 4, 1, 0, 0x40, 4, 5, 7, 9, 9] ++
            [0x55, 20, 4])).1.map Frame.raw).flatten.Sublist
      (0x01 :: 0x55 :: 0x02 ::
        [0x55, 14, 4, 0, 2, 4, 1, 0, 0x40, 4, 5, 7, 9, 9] ++ [0x55, 20, 4]) :=
  (framer_output_valid _).2

-- ═══════════════════════════ C7: permissive decode ═════════════════════════

lemma jsSlice_natcast (data : List Nat) (s e : Nat) :
    jsSlice data (s : Int) (e : Int) =
      (data.take (min e data.length)).drop (min s data.length) := by
  unfold jsSlice
  rw [if_neg (show ¬((e : Int) < 0) by omega),
    if_neg (show ¬((s : Int) < 0) by omega)]
  have h1 : (min ((e : Nat) : Int) ((data.length : Int))).toNat =
      min e data.length := by omega
  have h2 : (min ((s : Nat) : Int) ((data.length : Int))).toNat =
      min s data.length := by omega
  rw [h1, h2]

/-- C7.  Permissive decode: `parseMessage` never inspects the header CRC-8
byte (offset 3) or the trailing CRC-16 bytes (offsets len-2 and len-1 of
the wire layout of §3/§6, which exist when the length field is at least
13).  For any input of at least 13 bytes starting with 0x55 whose length
field is between 13 and the available byte count, decoding succeeds, and
decoding any equally long input that agrees everywhere except possibly at
those three checksum offsets also succeeds with identical protocol
fields. -/
theorem permissive_decode (data data' : List Nat)
    (h13 : 13 ≤ data.length) (h0 : data.getD 0 0 = 0x55)
    (hlf13 : 13 ≤ lenField data) (hle : lenField data ≤ data.length)
    (hlen : data'.length = data.length)
    (hagree : ∀ i, i < data.length → i ≠ 3 → i ≠ lenField data - 2 →
      i ≠ lenField data - 1 → data'.getD i 0 = data.getD i 0) :
    ∃ f f', parseMessage data = some f ∧ parseMessage data' = some f' ∧
      f'.length = f.length ∧ f'.sender = f.sender ∧ f'.receiver = f.receiver ∧
      f'.msgId = f.msgId ∧ f'.flags = f.flags ∧ f'.cmdSet = f.cmdSet ∧
      f'.cmdId = f.cmdId ∧ f'.payload = f.payload := by
  have hag : ∀ i, i ≤ 10 → i ≠ 3 → data'.getD i 0 = data.getD i 0 := by
    intro i hi hi3
    exact hagree i (by omega) hi3 (by omega) (by omega)
  have h0' : data'.getD 0 0 = 0x55 := by rw [hag 0 (by omega) (by omega)]; exact h0
  have hlf' : lenField data' = lenField data := by
    unfold lenField
    rw [hag 1 (by omega) (by omega), hag 2 (by omega) (by omega)]
  have hpm := parseMessage_some data h13 h0 hle
  have hpm' := parseMessage_some data' (by omega) h0'
    (by rw [hlf', hlen]; exact hle)
  refine ⟨_, _, hpm, hpm', ?_, ?_, ?_, ?_, ?_, ?_, ?_, ?_⟩
  · exact hlf'
  · exact hag 4 (by omega) (by omega)
  · exact hag 5 (by omega) (by omega)
  · show 256 * data'.getD 6 0 + data'.getD 7 0 = 256 * data.getD 6 0 + data.getD 7 0
    rw [hag 6 (by omega) (by omega), hag 7 (by omega) (by omega)]
  · exact hag 8 (by omega) (by omega)
  · exact hag 9 (by omega) (by omega)
  · exact hag 10 (by omega) (by omega)
  · show jsSlice data' 11 ((lenField data' : Int) - 2) =
      jsSlice data 11 ((lenField data : Int) - 2)
    rw [hlf']
    have hcast : ((lenField data : Int) - 2) =
        (((lenField data - 2 : Nat)) : Int) := by omega
    rw [hcast, show (11 : Int) = ((11 : Nat) : Int) by norm_num,
      jsSlice_natcast, jsSlice_natcast, hlen]
    have hm1 : min (lenField data - 2) data.length = lenField data - 2 := by omega
    have hm2 : min 11 data.length = 11 := by omega
    rw [hm1, hm2]
    apply List.ext_getElem
    · simp only [List.length_drop, List.length_take, hlen]
    · intro i hi1 hi2
      simp only [List.length_drop, List.length_take, hlen] at hi1 hi2
      rw [List.getElem_drop, List.getElem_take, List.getElem_drop,
        List.getElem_take]
      have hb1 : 11 + i < data.length := by omega
      have hb1' : 11 + i < data'.length := by omega
      have e1 := hagree (11 + i) hb1 (by omega) (by omega) (by omega)
      rw [List.getD_eq_getElem data' 0 hb1', List.getD_eq_getElem data 0 hb1] at e1
      exact e1

/-- C7 witness: two 13-byte inputs differing only in the header-checksum
byte (offset 3) and the trailing-checksum bytes (offsets 11 and 12) decode
to identical protocol fields. -/
theorem permissive_decode_witness :
    13 ≤ lenField [0x55, 13, 4, 0, 2, 4, 1, 0, 0x40, 4, 5, 0, 0] ∧
    (∃ f f', parseMessage [0x55, 13, 4, 0, 2, 4, 1, 0, 0x40, 4, 5, 0, 0] = some f ∧
      parseMessage [0x55, 13, 4, 99, 2, 4, 1, 0, 0x40, 4, 5, 88, 77] = some f' ∧
      f'.length = f.length ∧ f'.sender = f.sender ∧ f'.receiver = f.receiver ∧
      f'.msgId = f.msgId ∧ f'.flags = f.flags ∧ f'.cmdSet = f.cmdSet ∧
      f'.cmdId = f.cmdId ∧ f'.payload = f.payload) :=
  ⟨by decide,
   permissive_decode [0x55, 13, 4, 0, 2, 4, 1, 0, 0x40, 4, 5, 0, 0]
     [0x55, 13, 4, 99, 2, 4, 1, 0, 0x40, 4, 5, 88, 77]
     (by decide) (by decide) (by decide) (by decide) (by decide) (by decide)⟩

-- ═══════════════════════════ C9: handshake timeout is advisory ═════════════

lemma handleMessage_paired (st : ConnState) (m : Frame) :
    (handleMessage st m).1.paired = (st.paired || setsPaired m) := by
  unfold setsPaired handleMessage
  split_ifs <;> simp

lemma handleMessage_no_paired_event (st : ConnState) (m : Frame)
    (h : setsPaired m = false) (b : Bool) :
    ConnEvent.paired b ∉ (handleMessage st m).2 := by
  unfold setsPaired handleMessage at h
  unfold handleMessage
  split_ifs at h ⊢ <;> simp_all

lemma processBatch_paired_false : ∀ (batch : List Frame) (st : ConnState),
    st.paired = false → (∀ m ∈ batch, setsPaired m = false) →
    (processBatch st batch).1.paired = false ∧
    ∀ b, ConnEvent.paired b ∉ (processBatch st batch).2 := by
  intro batch
  induction batch with
  | nil => intro st h _; exact ⟨h, by simp [processBatch]⟩
  | cons m rest ih =>
    intro st hst hall
    have hm : setsPaired m = false := hall m (by simp)
    have hst' : (handleMessage st m).1.paired = false := by
      simp [handleMessage_paired, hst, hm]
    have hrest := ih (handleMessage st m).1 hst'
      (fun x hx => hall x (by simp [hx]))
    constructor
    · exact hrest.1
    · intro b hb
      have hb' : ConnEvent.paired b ∈ (handleMessage st m).2 ++
          (processBatch (handleMessage st m).1 rest).2 := hb
      rw [List.mem_append] at hb'
      rcases hb' with h1 | h1
      · exact handleMessage_no_paired_event st m hm b h1
      · exact hrest.2 b h1

lemma pairPoll_never_paired : ∀ (n : Nat) (st : ConnState)
    (batches : List (List Frame)), st.paired = false →
    (∀ m ∈ batches.flatten, setsPaired m = false) →
    (pairPoll n st batches).1.paired = false ∧
    ∀ b, ConnEvent.paired b ∉ (pairPoll n st batches).2 := by
  intro n
  induction n with
  | zero => intro st batches h _; exact ⟨h, by simp [pairPoll]⟩
  | succ k ih =>
    intro st batches hst hall
    unfold pairPoll
    rw [if_neg (by simp [hst])]
    have hbatch : ∀ m ∈ batches.headD [], setsPaired m = false := by
      intro m hm
      apply hall
      cases batches with
      | nil => simp at hm
      | cons hd tl =>
        rw [List.headD_cons] at hm
        exact List.mem_flatten.mpr ⟨hd, by simp, hm⟩
    have htail : ∀ m ∈ batches.tail.flatten, setsPaired m = false := by
      intro m hm
      apply hall
      cases batches with
      | nil => simp at hm
      | cons hd tl =>
        rw [List.tail_cons] at hm
        rw [List.mem_flatten] at hm
        obtain ⟨l, hl, hml⟩ := hm
        exact List.mem_flatten.mpr ⟨l, by simp [hl], hml⟩
    have hpb := processBatch_paired_false (batches.headD []) st hst hbatch
    have hih := ih (processBatch st (batches.headD [])).1 batches.tail hpb.1 htail
    constructor
    · exact hih.1
    · intro b hb
      have hb' : ConnEvent.paired b ∈ (processBatch st (batches.headD [])).2 ++
          (pairPoll k (processBatch st (batches.headD [])).1 batches.tail).2 := hb
      rw [List.mem_append] at hb'
      rcases hb' with h1 | h1
      · exact hpb.2 b h1
      · exact hih.2 b h1

/-- C9.  Handshake timeout is advisory: when no delivered message ever sets
the paired flag (in particular, no qualifying WiFi-commandSet response),
the 30-poll wait loop of `_pair` leaves the flag false, the routine emits
the `pairingTimeout` event and returns `false` as an ordinary value (no
exception is modelled or thrown on this path), and no `paired` event is
ever emitted. -/
theorem handshake_timeout_advisory (batches : List (List Frame))
    (hall : ∀ m ∈ batches.flatten, setsPaired m = false) :
    (pairFlow batches).1 = false ∧
    (pairPoll 30 ⟨false, none⟩ batches).1.paired = false ∧
    ConnEvent.pairingTimeout ∈ (pairFlow batches).2 ∧
    ∀ b, ConnEvent.paired b ∉ (pairFlow batches).2 := by
  have h := pairPoll_never_paired 30 ⟨false, none⟩ batches rfl hall
  unfold pairFlow
  rw [if_neg (by simp [h.1])]
  refine ⟨rfl, h.1, by simp, ?_⟩
  intro b hb
  have hb' : ConnEvent.paired b ∈ ConnEvent.pairing ::
      ((pairPoll 30 ⟨false, none⟩ batches).2 ++ [ConnEvent.pairingTimeout]) := hb
  rcases List.mem_cons.mp hb' with h1 | h1
  · simp at h1
  rcases List.mem_append.mp h1 with h2 | h2
  · exact h.2 b h2
  · simp at h2

/-- C9 witness: a pairing session that only ever receives a battery
telemetry frame times out after the 30 polls with no paired event. -/
theorem handshake_timeout_advisory_witness :
    setsPaired demoBatteryFrame = false ∧
    ((pairFlow [[demoBatteryFrame]]).1 = false ∧
    (pairPoll 30 ⟨false, none⟩ [[demoBatteryFrame]]).1.paired = false ∧
    ConnEvent.pairingTimeout ∈ (pairFlow [[demoBatteryFrame]]).2 ∧
    ConnEvent.paired true ∉ (pairFlow [[demoBatteryFrame]]).2 ∧
    ConnEvent.paired false ∉ (pairFlow [[demoBatteryFrame]]).2) :=
  ⟨by decide,
   (handshake_timeout_advisory [[demoBatteryFrame]] (by decide)).1,
   (handshake_timeout_advisory [[demoBatteryFrame]] (by decide)).2.1,
   (handshake_timeout_advisory [[demoBatteryFrame]] (by decide)).2.2.1,
   (handshake_timeout_advisory [[demoBatteryFrame]] (by decide)).2.2.2 true,
   (handshake_timeout_advisory [[demoBatteryFrame]] (by decide)).2.2.2 false⟩
